import Mathlib

/-!
Verification development for the Turtle Adventure game
(`turtle_adventure.py`).

The Python source works on IEEE floats; here float values are embedded as
exact rationals (every float is a rational) wherever the program only does
field arithmetic and comparisons, and as real numbers wherever the program
applies transcendental functions (`log`, `atan2`, `cos`, `sin`, `sqrt`).
`time.time()` snapshots are modelled as a time parameter passed to each
update function.
-/

namespace TurtleAdventure

/-- Python `int()` applied to a rational: truncation toward zero. -/
def ratPyInt (q : ℚ) : ℤ := if 0 ≤ q then ⌊q⌋ else ⌈q⌉

/-- Python `int()` applied to a real: truncation toward zero. -/
noncomputable def realPyInt (x : ℝ) : ℤ := if 0 ≤ x then ⌊x⌋ else ⌈x⌉

/-- Python `range(a, b)` as a list of integers. -/
def pyRange (a b : ℤ) : List ℤ := (List.range (b - a).toNat).map (fun i : ℕ => a + (i : ℤ))

/-- Source `exclude(list_all, list_exclude_item)`:
`[item for item in list_all if item not in list_exclude_item]`. -/
def exclude (list_all list_exclude_item : List ℤ) : List ℤ :=
  list_all.filter (fun item => decide (item ∉ list_exclude_item))

lemma mem_pyRange {a b x : ℤ} : x ∈ pyRange a b ↔ a ≤ x ∧ x < b := by
  simp only [pyRange, List.mem_map, List.mem_range]
  constructor
  · rintro ⟨i, hi, rfl⟩
    omega
  · rintro ⟨h1, h2⟩
    refine ⟨(x - a).toNat, by omega, by omega⟩

lemma mem_exclude {l le : List ℤ} {x : ℤ} : x ∈ exclude l le ↔ x ∈ l ∧ x ∉ le := by
  simp [exclude, List.mem_filter]

/-- `Home` from the source: a fixed position and a size. -/
structure Home where
  x : ℝ
  y : ℝ
  size : ℝ

/-- `Home.contains(x, y)` from the source:
`x1 <= x <= x2 and y1 <= y <= y2` with `x1, x2 = self.x∓size/2`,
`y1, y2 = self.y∓size/2`. -/
def Home.contains (h : Home) (x y : ℝ) : Prop :=
  (h.x - h.size / 2 ≤ x ∧ x ≤ h.x + h.size / 2) ∧
  (h.y - h.size / 2 ≤ y ∧ y ≤ h.y + h.size / 2)

/-- `Enemy.hits_player()` from the source:
`(self.x - size/2 < player.x < self.x + size/2) and
 (self.y - size/2 < player.y < self.y + size/2)`. -/
def hitsPlayer (pos : ℝ × ℝ) (size : ℝ) (player : ℝ × ℝ) : Prop :=
  (pos.1 - size / 2 < player.1 ∧ player.1 < pos.1 + size / 2) ∧
  (pos.2 - size / 2 < player.2 ∧ player.2 < pos.2 + size / 2)

lemma hitsPlayer_iff_abs (pos : ℝ × ℝ) (size : ℝ) (player : ℝ × ℝ) :
    hitsPlayer pos size player ↔
      |player.1 - pos.1| < size / 2 ∧ |player.2 - pos.2| < size / 2 := by
  simp only [hitsPlayer, abs_lt]
  constructor
  · rintro ⟨⟨a, b⟩, ⟨c, d⟩⟩
    exact ⟨⟨by linarith, by linarith⟩, ⟨by linarith, by linarith⟩⟩
  · rintro ⟨⟨a, b⟩, ⟨c, d⟩⟩
    exact ⟨⟨by linarith, by linarith⟩, ⟨by linarith, by linarith⟩⟩

/-- C5: `hits_player()` returns true iff the player's position lies strictly
inside the open square of half-width `size/2` centered on the enemy on both
axes (so it is false on the boundary). -/
theorem claim_C5 (pos : ℝ × ℝ) (size : ℝ) (player : ℝ × ℝ) :
    hitsPlayer pos size player ↔
      |player.1 - pos.1| < size / 2 ∧ |player.2 - pos.2| < size / 2 :=
  hitsPlayer_iff_abs pos size player

/-- C6: `Home.contains(x, y)` returns true iff `x` and `y` both lie within the
closed interval of half-width `size/2` around Home's center coordinate on that
axis (all four edges boundary-inclusive). -/
theorem claim_C6 (h : Home) (x y : ℝ) :
    h.contains x y ↔ |x - h.x| ≤ h.size / 2 ∧ |y - h.y| ≤ h.size / 2 := by
  simp only [Home.contains, abs_le]
  constructor
  · rintro ⟨⟨a, b⟩, ⟨c, d⟩⟩
    exact ⟨⟨by linarith, by linarith⟩, ⟨by linarith, by linarith⟩⟩
  · rintro ⟨⟨a, b⟩, ⟨c, d⟩⟩
    exact ⟨⟨by linarith, by linarith⟩, ⟨by linarith, by linarith⟩⟩

/-- The pool a spawn coordinate is drawn from (`StalkEnemy.create`,
`RandomWalkEnemy.create`, `StraightEnemy.create`):
`exclude(list(range(0, bound)), list(range(int(player - 20), int(player + 20))))`,
with `player` the player's coordinate on that axis. -/
def spawnCoords (bound : ℤ) (p : ℚ) : List ℤ :=
  exclude (pyRange 0 bound) (pyRange (ratPyInt (p - 20)) (ratPyInt (p + 20)))

lemma spawn_far {bound : ℤ} {p : ℚ} {ex : ℤ} (h : ex ∈ spawnCoords bound p) :
    0 ≤ ex ∧ 19 < |p - (ex : ℚ)| := by
  obtain ⟨hmem, hnot⟩ := mem_exclude.mp h
  obtain ⟨h0, _⟩ := mem_pyRange.mp hmem
  refine ⟨h0, ?_⟩
  rw [mem_pyRange] at hnot
  push_neg at hnot
  rw [lt_abs]
  by_cases hcase : ratPyInt (p - 20) ≤ ex
  · have h2 : ratPyInt (p + 20) ≤ ex := hnot hcase
    right
    by_cases hpos : 0 ≤ p + 20
    · have hr : ratPyInt (p + 20) = ⌊p + 20⌋ := if_pos hpos
      rw [hr] at h2
      have hf : p + 20 - 1 < (⌊p + 20⌋ : ℚ) := Int.sub_one_lt_floor _
      have hc : ((⌊p + 20⌋ : ℤ) : ℚ) ≤ (ex : ℚ) := Int.cast_le.mpr h2
      linarith
    · have hc : (0 : ℚ) ≤ (ex : ℚ) := Int.cast_nonneg.mpr h0
      push_neg at hpos
      linarith
  · push_neg at hcase
    left
    by_cases hpos : 0 ≤ p - 20
    · have hr : ratPyInt (p - 20) = ⌊p - 20⌋ := if_pos hpos
      rw [hr] at hcase
      have hfl : (⌊p - 20⌋ : ℚ) ≤ p - 20 := Int.floor_le _
      have hc : (ex : ℚ) ≤ ((⌊p - 20⌋ : ℤ) : ℚ) - 1 := by
        have : ex ≤ ⌊p - 20⌋ - 1 := by omega
        exact_mod_cast this
      linarith
    · have hr : ratPyInt (p - 20) = ⌈p - 20⌉ := if_neg hpos
      rw [hr] at hcase
      have hcl : ⌈p - 20⌉ ≤ 0 := Int.ceil_le.mpr (by push_neg at hpos; push_cast; linarith)
      exfalso
      omega

/-- C9: a freshly spawned Stalk, RandomWalk, or Straight enemy never hits the
player on the spawn tick: each spawn coordinate is drawn from `[0, bound)` with
the window `[int(player - 20), int(player + 20))` excluded on both axes, and
every spawned size (7, 14, 37) satisfies `size/2 < 19`, so `hits_player()` is
false immediately after `create()`. -/
theorem claim_C9 (w h : ℤ) (px py : ℚ) (size : ℝ) (ex ey : ℤ)
    (hsize : size / 2 < 19)
    (hx : ex ∈ spawnCoords w px) (_hy : ey ∈ spawnCoords h py) :
    ¬ hitsPlayer ((ex : ℝ), (ey : ℝ)) size ((px : ℝ), (py : ℝ)) := by
  intro hhit
  rw [hitsPlayer_iff_abs] at hhit
  have hh1 : |(px : ℝ) - ((ex : ℤ) : ℝ)| < size / 2 := hhit.1
  have h1 := (spawn_far hx).2
  have h1r : (19 : ℝ) < |(px : ℝ) - ((ex : ℤ) : ℝ)| := by exact_mod_cast h1
  linarith

/-- Witness for C9 at a concrete spawn: bounds 30×30, player at (5,5),
size 37, spawn position (25,25). -/
lemma mem_spawnCoords_sample : (25 : ℤ) ∈ spawnCoords 30 5 := by
  rw [spawnCoords, mem_exclude, mem_pyRange, mem_pyRange]
  have h1 : ratPyInt ((5 : ℚ) - 20) = -15 := by
    rw [ratPyInt, if_neg (by norm_num), show (5 : ℚ) - 20 = ((-15 : ℤ) : ℚ) by norm_num]
    exact Int.ceil_intCast _
  have h2 : ratPyInt ((5 : ℚ) + 20) = 25 := by
    rw [ratPyInt, if_pos (by norm_num), show (5 : ℚ) + 20 = ((25 : ℤ) : ℚ) by norm_num]
    exact Int.floor_intCast _
  rw [h1, h2]
  norm_num

theorem claim_C9_witness :
    ¬ hitsPlayer (((25 : ℤ) : ℝ), ((25 : ℤ) : ℝ)) 37 (((5 : ℚ) : ℝ), ((5 : ℚ) : ℝ)) :=
  claim_C9 30 30 5 5 37 25 25 (by norm_num) mem_spawnCoords_sample mem_spawnCoords_sample

/-- The observable session state of `TurtleAdventureGame`: whether the game
loop is running, and the list of text items created on the canvas (banners). -/
structure Session where
  started : Bool
  texts : List String
deriving DecidableEq

/-- Modelled from the spec: `gamelib.Game.stop` (the `gamelib` module is part
of this repository but is not under `src/`; only its caller
`turtle_adventure.py` is). Per §4.6 of the spec, stopping the session halts
all further ticking and scheduling: the running flag is cleared. -/
def Session.stop (s : Session) : Session := { s with started := false }

/-- `TurtleAdventureGame.game_over_win` from the source: `self.stop()` followed
by `canvas.create_text(..., text="You Win", ...)`. -/
def game_over_win (s : Session) : Session :=
  let s' := s.stop
  { s' with texts := s'.texts ++ ["You Win"] }

/-- `TurtleAdventureGame.game_over_lose` from the source: `self.stop()`
followed by `canvas.create_text(..., text="You Lose", ...)`. -/
def game_over_lose (s : Session) : Session :=
  let s' := s.stop
  { s' with texts := s'.texts ++ ["You Lose"] }

/-- C2 counterexample: starting from a running session with an empty canvas,
`game_over_win` puts the session in a terminal (stopped) state, yet a
subsequent `game_over_lose` is not a no-op: it changes the session (it creates
an additional banner). -/
theorem claim_C2_counterexample :
    (game_over_win ⟨true, []⟩).started = false ∧
    game_over_lose (game_over_win ⟨true, []⟩) ≠ game_over_win ⟨true, []⟩ := by
  refine ⟨rfl, ?_⟩
  intro hEq
  have := congrArg Session.texts hEq
  simp [game_over_win, game_over_lose, Session.stop] at this

/-- C2 (amended): calling `game_over_win` or `game_over_lose` again after a
terminal state keeps the session stopped (the stop flag is idempotent), but it
is not a no-op: each call unconditionally appends its own banner text, so a
second signal adds a second banner on top of the first. -/
theorem claim_C2 (s : Session) :
    ((game_over_win s).started = false ∧ (game_over_lose s).started = false) ∧
    (game_over_win s).texts = s.texts ++ ["You Win"] ∧
    (game_over_lose s).texts = s.texts ++ ["You Lose"] := by
  refine ⟨⟨rfl, rfl⟩, rfl, rfl⟩

/-- `math.atan2(y, x)`, idealized over the reals: the argument of the complex
number `x + y*i`, valued in `(-π, π]` (with `atan2 0 0 = 0`, as in Python). -/
noncomputable def atan2 (y x : ℝ) : ℝ := Complex.arg ⟨x, y⟩

/-- `turtle.towards(target)`: the bearing from `p` to `target`. -/
noncomputable def towards (p target : ℝ × ℝ) : ℝ := atan2 (target.2 - p.2) (target.1 - p.1)

/-- `turtle.distance(target)`: Euclidean distance between two points. -/
noncomputable def dist2 (a b : ℝ × ℝ) : ℝ :=
  Real.sqrt ((b.1 - a.1) ^ 2 + (b.2 - a.2) ^ 2)

/-- `Waypoint` from the source: a position and an active flag. -/
structure Waypoint where
  x : ℝ
  y : ℝ
  isActive : Bool

/-- The game-won check at the top of `Player.update`:
`self.game.home.contains(self.x, self.y)` triggers `game_over_win()`. -/
def playerWinSignal (home : Home) (p : ℝ × ℝ) : Prop := home.contains p.1 p.2

/-- The movement part of `Player.update`: if the waypoint is active, set the
heading toward the waypoint, move forward by `speed`, and deactivate the
waypoint if the distance to it (measured after the move) is below `speed`.
Returns the new position and the waypoint's new active flag. -/
noncomputable def playerMove (wp : Waypoint) (p : ℝ × ℝ) (speed : ℝ) : (ℝ × ℝ) × Bool :=
  if wp.isActive = true then
    let θ := towards p (wp.x, wp.y)
    let p' := (p.1 + speed * Real.cos θ, p.2 + speed * Real.sin θ)
    if dist2 p' (wp.x, wp.y) < speed then (p', false) else (p', true)
  else (p, wp.isActive)

lemma cos_sin_atan2 (y x : ℝ) (h : ¬(x = 0 ∧ y = 0)) :
    Real.cos (atan2 y x) = x / Real.sqrt (x ^ 2 + y ^ 2) ∧
    Real.sin (atan2 y x) = y / Real.sqrt (x ^ 2 + y ^ 2) := by
  have hz : (⟨x, y⟩ : ℂ) ≠ 0 := by
    simp only [ne_eq, Complex.ext_iff, Complex.zero_re, Complex.zero_im]
    exact h
  have habs : Complex.abs ⟨x, y⟩ = Real.sqrt (x ^ 2 + y ^ 2) := by
    rw [Complex.abs_apply, Complex.normSq_mk]
    congr 1
    ring
  constructor
  · rw [atan2, Complex.cos_arg hz, habs]
  · rw [atan2, Complex.sin_arg, habs]

lemma dist2_pos {p t : ℝ × ℝ} (h : t ≠ p) : 0 < dist2 p t := by
  rw [dist2, Real.sqrt_pos]
  have hor : t.1 ≠ p.1 ∨ t.2 ≠ p.2 := by
    by_contra hc
    push_neg at hc
    exact h (Prod.ext_iff.mpr ⟨hc.1, hc.2⟩)
  rcases hor with h1 | h1
  · have hne := sub_ne_zero.mpr h1
    have hsq : 0 < (t.1 - p.1) ^ 2 := (sq_nonneg _).lt_of_ne (Ne.symm (pow_ne_zero 2 hne))
    have := sq_nonneg (t.2 - p.2)
    linarith
  · have hne := sub_ne_zero.mpr h1
    have hsq : 0 < (t.2 - p.2) ^ 2 := (sq_nonneg _).lt_of_ne (Ne.symm (pow_ne_zero 2 hne))
    have := sq_nonneg (t.1 - p.1)
    linarith

lemma playerMove_active (wp : Waypoint) (px py speed : ℝ)
    (hA : wp.isActive = true) (hne : (wp.x, wp.y) ≠ (px, py)) :
    (playerMove wp (px, py) speed).1 =
      (px + speed * ((wp.x - px) / dist2 (px, py) (wp.x, wp.y)),
       py + speed * ((wp.y - py) / dist2 (px, py) (wp.x, wp.y))) ∧
    ((playerMove wp (px, py) speed).2 = false ↔
      dist2 (playerMove wp (px, py) speed).1 (wp.x, wp.y) < speed) := by
  have hne' : ¬(wp.x - px = 0 ∧ wp.y - py = 0) := by
    rintro ⟨hx, hy⟩
    exact hne (Prod.ext_iff.mpr ⟨by linarith, by linarith⟩)
  obtain ⟨hcos, hsin⟩ := cos_sin_atan2 (wp.y - py) (wp.x - px) hne'
  have hθ : towards (px, py) (wp.x, wp.y) = atan2 (wp.y - py) (wp.x - px) := rfl
  have hdd : dist2 (px, py) (wp.x, wp.y) =
      Real.sqrt ((wp.x - px) ^ 2 + (wp.y - py) ^ 2) := rfl
  constructor
  · simp only [playerMove, hA, if_true]
    split
    · simp only [hθ, hcos, hsin, hdd]
    · simp only [hθ, hcos, hsin, hdd]
  · simp only [playerMove, hA, if_true]
    split
    · rename_i hlt
      simp only [true_iff]
      exact hlt
    · rename_i hlt
      simp only [Bool.true_eq_false, false_iff]
      exact hlt

/-- C7: on a tick with an active waypoint (player not at Home and not exactly
on the waypoint), `Player.update` advances the player by exactly `speed` along
the straight-line bearing toward the waypoint — i.e. by `speed/d` times the
displacement vector, `d` the current distance — and deactivates the waypoint
that tick iff the remaining distance measured after the step is below
`speed` (the player may end short of the exact waypoint position). -/
theorem claim_C7 (home : Home) (wp : Waypoint) (px py speed : ℝ)
    (_hHome : ¬ home.contains px py) (hA : wp.isActive = true)
    (hne : (wp.x, wp.y) ≠ (px, py)) :
    (playerMove wp (px, py) speed).1 =
      (px + speed * ((wp.x - px) / dist2 (px, py) (wp.x, wp.y)),
       py + speed * ((wp.y - py) / dist2 (px, py) (wp.x, wp.y))) ∧
    ((playerMove wp (px, py) speed).2 = false ↔
      dist2 (playerMove wp (px, py) speed).1 (wp.x, wp.y) < speed) :=
  playerMove_active wp px py speed hA hne

/-- Witness for C7: player at the origin, waypoint at (3, 4), Home far away. -/
theorem claim_C7_witness :
    (playerMove ⟨3, 4, true⟩ ((0 : ℝ), (0 : ℝ)) 5).1 =
      (0 + 5 * ((3 - 0) / dist2 ((0 : ℝ), (0 : ℝ)) (3, 4)),
       0 + 5 * ((4 - 0) / dist2 ((0 : ℝ), (0 : ℝ)) (3, 4))) ∧
    ((playerMove ⟨3, 4, true⟩ ((0 : ℝ), (0 : ℝ)) 5).2 = false ↔
      dist2 (playerMove ⟨3, 4, true⟩ ((0 : ℝ), (0 : ℝ)) 5).1 (3, 4) < 5) :=
  claim_C7 ⟨100, 100, 20⟩ ⟨3, 4, true⟩ 0 0 5
    (by norm_num [Home.contains]) rfl (by norm_num [Prod.ext_iff])

lemma dist2_horizontal : dist2 ((0 : ℝ), (0 : ℝ)) ((10 : ℝ), (0 : ℝ)) = 10 := by
  rw [dist2]
  norm_num
  rw [show (100 : ℝ) = 10 ^ 2 by norm_num]
  exact Real.sqrt_sq (by norm_num)

/-- C1 counterexample: with Home centered at the origin (size 20), the player
at the origin (inside Home) and an active waypoint at (10, 0),
`Player.update` does signal game-won, but it does NOT skip movement: the
position after the update differs from the position before it. -/
theorem claim_C1_counterexample :
    playerWinSignal ⟨0, 0, 20⟩ ((0 : ℝ), (0 : ℝ)) ∧
    (playerMove ⟨10, 0, true⟩ ((0 : ℝ), (0 : ℝ)) 5).1 ≠ ((0 : ℝ), (0 : ℝ)) := by
  constructor
  · refine ⟨⟨by norm_num, by norm_num⟩, ⟨by norm_num, by norm_num⟩⟩
  · have hmv := (playerMove_active ⟨10, 0, true⟩ 0 0 5 rfl (by norm_num [Prod.ext_iff])).1
    rw [hmv]
    have hd : dist2 ((0 : ℝ), (0 : ℝ)) ((10 : ℝ), (0 : ℝ)) = 10 := dist2_horizontal
    simp only [Prod.mk.injEq, ne_eq, not_and]
    intro h1
    rw [hd] at h1
    norm_num at h1

/-- C1 (amended): for a player position inside Home, `Player.update` signals
game-won, but it does not skip movement that tick: with an active waypoint at
a different location and positive speed, the player's position changes. -/
theorem claim_C1 (home : Home) (wp : Waypoint) (px py speed : ℝ)
    (hHome : home.contains px py) (hA : wp.isActive = true)
    (hne : (wp.x, wp.y) ≠ (px, py)) (hspeed : 0 < speed) :
    playerWinSignal home (px, py) ∧ (playerMove wp (px, py) speed).1 ≠ (px, py) := by
  refine ⟨hHome, ?_⟩
  have hmv := (playerMove_active wp px py speed hA hne).1
  rw [hmv]
  have hd : 0 < dist2 (px, py) (wp.x, wp.y) := dist2_pos hne
  simp only [Prod.mk.injEq, ne_eq, not_and]
  intro h1 h2
  have hx0 : wp.x - px = 0 := by
    have h1' : speed * ((wp.x - px) / dist2 (px, py) (wp.x, wp.y)) = 0 := by linarith
    rcases mul_eq_zero.mp h1' with h | h
    · exact absurd h (ne_of_gt hspeed)
    · rcases div_eq_zero_iff.mp h with h' | h'
      · exact h'
      · exact absurd h' (ne_of_gt hd)
  have hy0 : wp.y - py = 0 := by
    have h2' : speed * ((wp.y - py) / dist2 (px, py) (wp.x, wp.y)) = 0 := by linarith
    rcases mul_eq_zero.mp h2' with h | h
    · exact absurd h (ne_of_gt hspeed)
    · rcases div_eq_zero_iff.mp h with h' | h'
      · exact h'
      · exact absurd h' (ne_of_gt hd)
  exact hne (Prod.ext_iff.mpr ⟨by linarith, by linarith⟩)

/-- Witness for C1 (amended): player at (0, 0) inside Home ⟨0, 0, 20⟩, active
waypoint at (3, 4), speed 5. -/
theorem claim_C1_witness :
    playerWinSignal ⟨0, 0, 20⟩ ((0 : ℝ), (0 : ℝ)) ∧
    (playerMove ⟨3, 4, true⟩ ((0 : ℝ), (0 : ℝ)) 5).1 ≠ ((0 : ℝ), (0 : ℝ)) :=
  claim_C1 ⟨0, 0, 20⟩ ⟨3, 4, true⟩ 0 0 5
    ⟨⟨by norm_num, by norm_num⟩, ⟨by norm_num, by norm_num⟩⟩ rfl
    (by norm_num [Prod.ext_iff]) (by norm_num)

/-- The game state an enemy reads through its back-reference: the player's
position, the home, and the canvas/screen bounds. -/
structure World where
  player : ℝ × ℝ
  home : Home
  width : ℝ
  height : ℝ

/-- `StalkEnemy`: position, size, `start_time` snapshot, level, derived speed. -/
structure StalkEnemy where
  pos : ℝ × ℝ
  size : ℝ
  startTime : ℝ
  level : ℤ
  speed : ℝ

/-- Movement part of `StalkEnemy.update`: bearing toward the player's current
position; the x-component of the step is doubled relative to the y-component. -/
noncomputable def stalkMove (g : World) (e : StalkEnemy) : StalkEnemy :=
  let angle := atan2 (g.player.2 - e.pos.2) (g.player.1 - e.pos.1)
  { e with pos := (e.pos.1 + Real.cos angle * 2 * e.speed,
                   e.pos.2 + Real.sin angle * e.speed) }

/-- The expiry threshold in `StalkEnemy.delete`: `3000*int(log(level + 1))`
(natural logarithm, truncated by Python `int()`). -/
noncomputable def stalkThreshold (level : ℤ) : ℝ :=
  3000 * (realPyInt (Real.log ((level : ℝ) + 1)) : ℝ)

/-- The guard of `StalkEnemy.delete`:
`time.time() - self.start_time >= 3000*int(log(self.level + 1))`. -/
def stalkExpiryFires (e : StalkEnemy) (t : ℝ) : Prop :=
  stalkThreshold e.level ≤ t - e.startTime

open scoped Classical in
/-- State change of `StalkEnemy.update` at wall-clock time `t`: move toward
the player, then `delete()`, which re-places the enemy at the sentinel
(−999, −999) whenever its expiry condition holds. -/
noncomputable def stalkUpdate (g : World) (e : StalkEnemy) (t : ℝ) : StalkEnemy :=
  let m := stalkMove g e
  if stalkExpiryFires m t then { m with pos := (-999, -999) } else m

/-- The collision check in `StalkEnemy.update`: `hits_player()` evaluated at
the moved position, before `delete()` runs. -/
def stalkLoseSignal (g : World) (e : StalkEnemy) : Prop :=
  hitsPlayer (stalkMove g e).pos e.size g.player

/-- The four function-valued movement states of `FencingEnemy`
(`up`/`down`/`left`/`right`), as an explicit enum. -/
inductive FenceDir
  | up
  | down
  | left
  | right

/-- `FencingEnemy`: patrols a square fence around Home. -/
structure FencingEnemy where
  pos : ℝ × ℝ
  size : ℝ
  startTime : ℝ
  level : ℤ
  speed : ℝ
  fence : ℝ
  movement : FenceDir

/-- One movement step of `FencingEnemy`: the current movement function runs
and may reassign the movement state once the edge boundary is crossed
(`up → left → down → right → up`). -/
noncomputable def fencingMove (g : World) (e : FencingEnemy) : FencingEnemy :=
  match e.movement with
  | FenceDir.up =>
    let y' := e.pos.2 - e.speed
    if y' ≤ g.home.y - e.fence then { e with pos := (e.pos.1, y'), movement := FenceDir.left }
    else { e with pos := (e.pos.1, y') }
  | FenceDir.down =>
    let y' := e.pos.2 + e.speed
    if y' ≥ g.home.y + e.fence then { e with pos := (e.pos.1, y'), movement := FenceDir.right }
    else { e with pos := (e.pos.1, y') }
  | FenceDir.left =>
    let x' := e.pos.1 - e.speed
    if x' ≤ g.home.x - e.fence then { e with pos := (x', e.pos.2), movement := FenceDir.down }
    else { e with pos := (x', e.pos.2) }
  | FenceDir.right =>
    let x' := e.pos.1 + e.speed
    if x' ≥ g.home.x + e.fence then { e with pos := (x', e.pos.2), movement := FenceDir.up }
    else { e with pos := (x', e.pos.2) }

/-- The guard of `FencingEnemy.delete`: `time.time() - self.start_time >= 30`. -/
def fencingExpiryFires (e : FencingEnemy) (t : ℝ) : Prop := 30 ≤ t - e.startTime

open scoped Classical in
/-- State change of `FencingEnemy.update` at time `t`: move, then `delete()`
re-places the enemy at (−999, −999) whenever its expiry condition holds. -/
noncomputable def fencingUpdate (g : World) (e : FencingEnemy) (t : ℝ) : FencingEnemy :=
  let m := fencingMove g e
  if fencingExpiryFires m t then { m with pos := (-999, -999) } else m

/-- The collision check in `FencingEnemy.update`, at the moved position. -/
def fencingLoseSignal (g : World) (e : FencingEnemy) : Prop :=
  hitsPlayer (fencingMove g e).pos e.size g.player

/-- `RandomWalkEnemy`'s two x-movement states (`left`/`right`). -/
inductive XDir
  | left
  | right

/-- `RandomWalkEnemy`'s two y-movement states (`up`/`down`). -/
inductive YDir
  | up
  | down

/-- `RandomWalkEnemy`: independent x and y bounce behaviors; `direction` is
the random integer in `[0, 360)` that the source feeds to `sin`/`cos` as
radians. -/
structure RandomWalkEnemy where
  pos : ℝ × ℝ
  size : ℝ
  startTime : ℝ
  speed : ℝ
  direction : ℤ
  xMove : XDir
  yMove : YDir

/-- `x_movement()` of `RandomWalkEnemy`: step by `fabs(cos(direction))*speed`,
reversing at the canvas bounds (`0` and `winfo_width()`). -/
noncomputable def rwMoveX (g : World) (e : RandomWalkEnemy) : RandomWalkEnemy :=
  match e.xMove with
  | XDir.left =>
    let x' := e.pos.1 - |Real.cos ((e.direction : ℝ))| * e.speed
    if x' ≤ 0 then { e with pos := (x', e.pos.2), xMove := XDir.right }
    else { e with pos := (x', e.pos.2) }
  | XDir.right =>
    let x' := e.pos.1 + |Real.cos ((e.direction : ℝ))| * e.speed
    if x' > g.width then { e with pos := (x', e.pos.2), xMove := XDir.left }
    else { e with pos := (x', e.pos.2) }

/-- `y_movement()` of `RandomWalkEnemy`: step by `fabs(sin(direction))*speed`,
reversing at `0` and `screen_height`. -/
noncomputable def rwMoveY (g : World) (e : RandomWalkEnemy) : RandomWalkEnemy :=
  match e.yMove with
  | YDir.up =>
    let y' := e.pos.2 - |Real.sin ((e.direction : ℝ))| * e.speed
    if y' ≤ 0 then { e with pos := (e.pos.1, y'), yMove := YDir.down }
    else { e with pos := (e.pos.1, y') }
  | YDir.down =>
    let y' := e.pos.2 + |Real.sin ((e.direction : ℝ))| * e.speed
    if y' > g.height then { e with pos := (e.pos.1, y'), yMove := YDir.up }
    else { e with pos := (e.pos.1, y') }

/-- The movement part of `RandomWalkEnemy.update`: `x_movement()` then
`y_movement()`. -/
noncomputable def rwMove (g : World) (e : RandomWalkEnemy) : RandomWalkEnemy :=
  rwMoveY g (rwMoveX g e)

/-- The guard of `RandomWalkEnemy.delete`:
`time.time() - self.start_time >= 5`. -/
def rwExpiryFires (e : RandomWalkEnemy) (t : ℝ) : Prop := 5 ≤ t - e.startTime

open scoped Classical in
/-- State change of `RandomWalkEnemy.update` at time `t`: move on both axes,
then `delete()` re-places the enemy at (−999, −999) whenever its expiry
condition holds. -/
noncomputable def rwUpdate (g : World) (e : RandomWalkEnemy) (t : ℝ) : RandomWalkEnemy :=
  let m := rwMove g e
  if rwExpiryFires m t then { m with pos := (-999, -999) } else m

/-- The collision check in `RandomWalkEnemy.update`, at the moved position. -/
def rwLoseSignal (g : World) (e : RandomWalkEnemy) : Prop :=
  hitsPlayer (rwMove g e).pos e.size g.player

lemma fencingMove_fields (g : World) (e : FencingEnemy) :
    (fencingMove g e).startTime = e.startTime ∧ (fencingMove g e).size = e.size := by
  rcases e with ⟨pos, size, st, lvl, sp, fence, mv⟩
  cases mv <;> simp only [fencingMove] <;> split <;> exact ⟨rfl, rfl⟩

lemma rwMove_fields (g : World) (e : RandomWalkEnemy) :
    (rwMove g e).startTime = e.startTime ∧ (rwMove g e).size = e.size := by
  rcases e with ⟨pos, size, st, sp, dir, xm, ym⟩
  rw [rwMove]
  cases xm <;> cases ym <;>
    simp only [rwMoveX] <;> split <;>
    simp only [rwMoveY] <;> split <;> exact ⟨rfl, rfl⟩

lemma stalkUpdate_fields (g : World) (e : StalkEnemy) (t : ℝ) :
    (stalkUpdate g e t).startTime = e.startTime ∧ (stalkUpdate g e t).size = e.size ∧
    (stalkUpdate g e t).level = e.level := by
  simp only [stalkUpdate]
  split <;> exact ⟨rfl, rfl, rfl⟩

lemma fencingUpdate_fields (g : World) (e : FencingEnemy) (t : ℝ) :
    (fencingUpdate g e t).startTime = e.startTime ∧
    (fencingUpdate g e t).size = e.size := by
  have hm := fencingMove_fields g e
  simp only [fencingUpdate]
  split
  · exact ⟨hm.1, hm.2⟩
  · exact hm

lemma rwUpdate_fields (g : World) (e : RandomWalkEnemy) (t : ℝ) :
    (rwUpdate g e t).startTime = e.startTime ∧ (rwUpdate g e t).size = e.size := by
  have hm := rwMove_fields g e
  simp only [rwUpdate]
  split
  · exact ⟨hm.1, hm.2⟩
  · exact hm

lemma stalkUpdate_pos_of_fires (g : World) (e : StalkEnemy) (t : ℝ)
    (hf : stalkExpiryFires e t) : (stalkUpdate g e t).pos = (-999, -999) := by
  have hf' : stalkExpiryFires (stalkMove g e) t := hf
  simp only [stalkUpdate]
  rw [if_pos hf']

lemma fencingUpdate_pos_of_fires (g : World) (e : FencingEnemy) (t : ℝ)
    (hf : fencingExpiryFires e t) : (fencingUpdate g e t).pos = (-999, -999) := by
  have hf' : fencingExpiryFires (fencingMove g e) t := by
    show (30 : ℝ) ≤ t - (fencingMove g e).startTime
    rw [(fencingMove_fields g e).1]
    exact hf
  simp only [fencingUpdate]
  rw [if_pos hf']

lemma rwUpdate_pos_of_fires (g : World) (e : RandomWalkEnemy) (t : ℝ)
    (hf : rwExpiryFires e t) : (rwUpdate g e t).pos = (-999, -999) := by
  have hf' : rwExpiryFires (rwMove g e) t := by
    show (5 : ℝ) ≤ t - (rwMove g e).startTime
    rw [(rwMove_fields g e).1]
    exact hf
  simp only [rwUpdate]
  rw [if_pos hf']

/-- C10: teardown does not delete the enemy object: once a Stalk, Fencing, or
RandomWalk enemy's elapsed time has reached its expiry threshold, `update()`
still runs (the enemy object persists, with its fields intact) but ends with
the position reset to (−999, −999); the enemy finishes every post-expiry tick
at the sentinel position. -/
theorem claim_C10 :
    (∀ (g : World) (e : StalkEnemy) (t : ℝ), stalkExpiryFires e t →
        (stalkUpdate g e t).pos = (-999, -999) ∧
        (stalkUpdate g e t).startTime = e.startTime ∧
        (stalkUpdate g e t).size = e.size ∧
        (stalkLoseSignal g e ↔ hitsPlayer (stalkMove g e).pos e.size g.player)) ∧
    (∀ (g : World) (e : FencingEnemy) (t : ℝ), fencingExpiryFires e t →
        (fencingUpdate g e t).pos = (-999, -999) ∧
        (fencingUpdate g e t).startTime = e.startTime ∧
        (fencingUpdate g e t).size = e.size ∧
        (fencingLoseSignal g e ↔ hitsPlayer (fencingMove g e).pos e.size g.player)) ∧
    (∀ (g : World) (e : RandomWalkEnemy) (t : ℝ), rwExpiryFires e t →
        (rwUpdate g e t).pos = (-999, -999) ∧
        (rwUpdate g e t).startTime = e.startTime ∧
        (rwUpdate g e t).size = e.size ∧
        (rwLoseSignal g e ↔ hitsPlayer (rwMove g e).pos e.size g.player)) := by
  refine ⟨?_, ?_, ?_⟩
  · intro g e t hf
    exact ⟨stalkUpdate_pos_of_fires g e t hf, (stalkUpdate_fields g e t).1,
      (stalkUpdate_fields g e t).2.1, Iff.rfl⟩
  · intro g e t hf
    exact ⟨fencingUpdate_pos_of_fires g e t hf, (fencingUpdate_fields g e t).1,
      (fencingUpdate_fields g e t).2, Iff.rfl⟩
  · intro g e t hf
    exact ⟨rwUpdate_pos_of_fires g e t hf, (rwUpdate_fields g e t).1,
      (rwUpdate_fields g e t).2, Iff.rfl⟩

/-- A concrete world: player at (50, 50), Home at the origin with size 20,
canvas 800 × 600. -/
noncomputable def worldSample : World := ⟨(50, 50), ⟨0, 0, 20⟩, 800, 600⟩

/-- A concrete RandomWalk enemy spawned at time 0 at (200, 200). -/
noncomputable def rwSample : RandomWalkEnemy := ⟨(200, 200), 14, 0, 1, 0, XDir.left, YDir.up⟩

/-- A concrete Fencing enemy spawned at time 0. -/
noncomputable def fencingSample : FencingEnemy := ⟨(25, 25), 10, 0, 7, 1, 25, FenceDir.up⟩

/-- Witness for C10 at the concrete Fencing enemy, updated at time 30. -/
theorem claim_C10_witness :
    (fencingUpdate worldSample fencingSample 30).pos = (-999, -999) ∧
    (fencingUpdate worldSample fencingSample 30).startTime = fencingSample.startTime ∧
    (fencingUpdate worldSample fencingSample 30).size = fencingSample.size ∧
    (fencingLoseSignal worldSample fencingSample ↔
      hitsPlayer (fencingMove worldSample fencingSample).pos fencingSample.size
        worldSample.player) :=
  claim_C10.2.1 worldSample fencingSample 30
    (by show (30 : ℝ) ≤ 30 - fencingSample.startTime; norm_num [fencingSample])

/-- C3 counterexample: the expiry action does not fire at most once per enemy.
For a RandomWalk enemy spawned at time 0, the expiry action (teardown body)
fires at the update at time 5 and fires again at the update at time 6: the
guard holds on both ticks and the teardown body re-runs (the position is
re-set to the sentinel each time). -/
theorem claim_C3_counterexample :
    rwExpiryFires rwSample 5 ∧
    (rwUpdate worldSample rwSample 5).pos = (-999, -999) ∧
    rwExpiryFires (rwUpdate worldSample rwSample 5) 6 ∧
    (rwUpdate worldSample (rwUpdate worldSample rwSample 5) 6).pos = (-999, -999) := by
  have h1 : rwExpiryFires rwSample 5 := by
    show (5 : ℝ) ≤ 5 - rwSample.startTime
    norm_num [rwSample]
  have hst : (rwUpdate worldSample rwSample 5).startTime = (0 : ℝ) := by
    rw [(rwUpdate_fields worldSample rwSample 5).1]
    norm_num [rwSample]
  have h2 : rwExpiryFires (rwUpdate worldSample rwSample 5) 6 := by
    show (5 : ℝ) ≤ 6 - (rwUpdate worldSample rwSample 5).startTime
    rw [hst]
    norm_num
  exact ⟨h1, rwUpdate_pos_of_fires _ _ _ h1, h2, rwUpdate_pos_of_fires _ _ _ h2⟩

/-- C3 (amended): for the Stalk, Fencing, and RandomWalk variants, the expiry
(teardown) action never fires while elapsed time since `start_time` is below
the variant's threshold, and fires at every update at or after the threshold —
in particular it does not fire at most once: once the threshold is reached it
repeats on every subsequent tick. -/
theorem claim_C3 :
    (∀ (g : World) (e : StalkEnemy) (t t' : ℝ),
        (stalkExpiryFires e t ↔ stalkThreshold e.level ≤ t - e.startTime) ∧
        (stalkExpiryFires e t → t ≤ t' → stalkExpiryFires (stalkUpdate g e t) t')) ∧
    (∀ (g : World) (e : FencingEnemy) (t t' : ℝ),
        (fencingExpiryFires e t ↔ 30 ≤ t - e.startTime) ∧
        (fencingExpiryFires e t → t ≤ t' → fencingExpiryFires (fencingUpdate g e t) t')) ∧
    (∀ (g : World) (e : RandomWalkEnemy) (t t' : ℝ),
        (rwExpiryFires e t ↔ 5 ≤ t - e.startTime) ∧
        (rwExpiryFires e t → t ≤ t' → rwExpiryFires (rwUpdate g e t) t')) := by
  refine ⟨?_, ?_, ?_⟩
  · intro g e t t'
    refine ⟨Iff.rfl, ?_⟩
    intro hf htt'
    show stalkThreshold (stalkUpdate g e t).level ≤ t' - (stalkUpdate g e t).startTime
    rw [(stalkUpdate_fields g e t).2.2, (stalkUpdate_fields g e t).1]
    have hf' : stalkThreshold e.level ≤ t - e.startTime := hf
    linarith
  · intro g e t t'
    refine ⟨Iff.rfl, ?_⟩
    intro hf htt'
    show (30 : ℝ) ≤ t' - (fencingUpdate g e t).startTime
    rw [(fencingUpdate_fields g e t).1]
    have hf' : (30 : ℝ) ≤ t - e.startTime := hf
    linarith
  · intro g e t t'
    refine ⟨Iff.rfl, ?_⟩
    intro hf htt'
    show (5 : ℝ) ≤ t' - (rwUpdate g e t).startTime
    rw [(rwUpdate_fields g e t).1]
    have hf' : (5 : ℝ) ≤ t - e.startTime := hf
    linarith

/-- Witness for C3 (amended) at the concrete RandomWalk enemy: the expiry
fired at time 5 keeps firing at the time-6 update of the already-expired
enemy. -/
theorem claim_C3_witness :
    rwExpiryFires (rwUpdate worldSample rwSample 5) 6 :=
  (claim_C3.2.2 worldSample rwSample 5 6).2
    (by show (5 : ℝ) ≤ 5 - rwSample.startTime; norm_num [rwSample]) (by norm_num)

/-- `LaserEnemy`: fixed origin `(x, y)` and direction set at `create()`, the
`start_time` snapshot, `speed`, `delay`, and the two-phase state flag
(`state` is `inactive` or `active`). -/
structure LaserEnemy where
  origin : ℝ × ℝ
  size : ℝ
  startTime : ℝ
  speed : ℝ
  delay : ℝ
  direction : ℝ
  isActive : Bool

/-- `LaserEnemy.hits_line()`:
`fabs(atan2(player.y - self.y, player.x - self.x) - self.direction) <= 0.01`.
The bearing is taken from the enemy's fixed origin to the player. -/
noncomputable def laserHitsLine (e : LaserEnemy) (player : ℝ × ℝ) : Prop :=
  |atan2 (player.2 - e.origin.2) (player.1 - e.origin.1) - e.direction| ≤ 0.01

/-- The game-lost signal raised by `LaserEnemy.update`: only the `active`
state runs the `hits_line()` check. -/
noncomputable def laserLoseSignal (e : LaserEnemy) (player : ℝ × ℝ) : Prop :=
  e.isActive = true ∧ laserHitsLine e player

open scoped Classical in
/-- State change of `LaserEnemy.update` at time `t` (`self.state()`):
`inactive` flips to `active` once `time.time() - start_time >= speed + delay`;
`active` runs `delete()`, which overwrites `direction` with −999 once
`time.time() - start_time >= 2*speed + delay`. -/
noncomputable def laserUpdate (e : LaserEnemy) (t : ℝ) : LaserEnemy :=
  match e.isActive with
  | false =>
    if e.speed + e.delay ≤ t - e.startTime then { e with isActive := true } else e
  | true =>
    if 2 * e.speed + e.delay ≤ t - e.startTime then { e with direction := -999 } else e

/-- C8: a Laser enemy is a two-phase state machine: it stays inactive (no
collision check, no state change) while elapsed time is below
`speed + delay`; it transitions to active exactly when elapsed ≥
`speed + delay` (still without a collision check on that tick); in the active
state it signals game-lost iff the absolute difference between the bearing
from its fixed origin to the player and its direction is at most 0.01
radians (and the direction is left untouched before the teardown threshold);
and it tears down (direction overwritten with −999) once elapsed ≥
`2*speed + delay`. -/
theorem claim_C8 (e : LaserEnemy) (t : ℝ) (p : ℝ × ℝ) :
    (e.isActive = false → t - e.startTime < e.speed + e.delay →
        laserUpdate e t = e ∧ ¬ laserLoseSignal e p) ∧
    (e.isActive = false → e.speed + e.delay ≤ t - e.startTime →
        (laserUpdate e t).isActive = true ∧ (laserUpdate e t).direction = e.direction ∧
        ¬ laserLoseSignal e p) ∧
    (e.isActive = true → (laserLoseSignal e p ↔ laserHitsLine e p)) ∧
    (e.isActive = true → t - e.startTime < 2 * e.speed + e.delay →
        laserUpdate e t = e) ∧
    (e.isActive = true → 2 * e.speed + e.delay ≤ t - e.startTime →
        (laserUpdate e t).direction = -999) := by
  obtain ⟨o, sz, st, sp, dl, dir, act⟩ := e
  refine ⟨?_, ?_, ?_, ?_, ?_⟩
  · intro ha hlt
    cases act
    · constructor
      · simp only [laserUpdate]
        rw [if_neg (not_le.mpr hlt)]
      · rintro ⟨hact, -⟩
        exact Bool.false_ne_true hact
    · exact absurd ha (by simp)
  · intro ha hle
    cases act
    · refine ⟨?_, ?_, ?_⟩
      · simp only [laserUpdate]
        rw [if_pos hle]
      · simp only [laserUpdate]
        rw [if_pos hle]
      · rintro ⟨hact, -⟩
        exact Bool.false_ne_true hact
    · exact absurd ha (by simp)
  · intro ha
    cases act
    · exact absurd ha (by simp)
    · simp only [laserLoseSignal, true_and]
  · intro ha hlt
    cases act
    · exact absurd ha (by simp)
    · simp only [laserUpdate]
      rw [if_neg (not_le.mpr hlt)]
  · intro ha hle
    cases act
    · exact absurd ha (by simp)
    · simp only [laserUpdate]
      rw [if_pos hle]

/-- Witness for C8: a freshly created inactive laser (start 0, speed 1,
delay 0) updated at time 1/2 stays unchanged and raises no lose signal. -/
theorem claim_C8_witness :
    laserUpdate ⟨((0 : ℝ), (0 : ℝ)), 14, 0, 1, 0, 0, false⟩ (1 / 2) =
      ⟨((0 : ℝ), (0 : ℝ)), 14, 0, 1, 0, 0, false⟩ ∧
    ¬ laserLoseSignal ⟨((0 : ℝ), (0 : ℝ)), 14, 0, 1, 0, 0, false⟩ ((7 : ℝ), (7 : ℝ)) :=
  (claim_C8 ⟨((0 : ℝ), (0 : ℝ)), 14, 0, 1, 0, 0, false⟩ (1 / 2) ((7 : ℝ), (7 : ℝ))).1
    rfl (by norm_num)

/-- The count of enemies of each kind spawned by one
`EnemyGenerator.create_enemy` round. -/
structure SpawnRound where
  stalk : ℕ
  fencing : ℕ
  randomWalk : ℕ
  straight : ℕ
  laser : ℕ
deriving DecidableEq

/-- The laser count computed in `create_enemy`:
`laser_num = int(log(self.level, 15) * self.level) // k`, where `k = 3` if
`level % 10 == 0` else `k = 5` (`//` is Python floor division). -/
noncomputable def laser_num (level : ℤ) : ℤ :=
  (realPyInt (Real.logb 15 (level : ℝ) * (level : ℝ))).fdiv
    (if level % 10 = 0 then 3 else 5)

/-- `EnemyGenerator.create_enemy` from the source, as the number of enemies of
each kind added in one round: Stalk when `level % 2 == 0`, Fencing when
`level % 7 == 0`, always one RandomWalk, Straight when `level % 3 == 0`, and
`laser_num` lasers (`for i in range(laser_num)`). -/
noncomputable def create_enemy (level : ℤ) : SpawnRound :=
  { stalk := if level % 2 = 0 then 1 else 0
    fencing := if level % 7 = 0 then 1 else 0
    randomWalk := 1
    straight := if level % 3 = 0 then 1 else 0
    laser := (laser_num level).toNat }

/-- One scheduler round as described by the spec's words (claim C4): one
Stalk enemy iff the level is even, one Fencing enemy iff the level is
divisible by 7, exactly one RandomWalk enemy always, one Straight enemy iff
the level is divisible by 3, and exactly `floor(log_base15(level) * level / k)`
Laser enemies, `k = 3` if `level % 10 == 0` else `k = 5`. -/
noncomputable def specRound (level : ℤ) : SpawnRound :=
  { stalk := if 2 ∣ level then 1 else 0
    fencing := if 7 ∣ level then 1 else 0
    randomWalk := 1
    straight := if 3 ∣ level then 1 else 0
    laser := (⌊Real.logb 15 (level : ℝ) * (level : ℝ) /
        (((if level % 10 = 0 then 3 else 5) : ℤ) : ℝ)⌋).toNat }

lemma floor_div_intCast (x : ℝ) {k : ℤ} (hk : 0 < k) : ⌊x⌋ / k = ⌊x / (k : ℝ)⌋ := by
  apply eq_of_forall_le_iff
  intro n
  have hk' : (0 : ℝ) < (k : ℝ) := by exact_mod_cast hk
  rw [Int.le_ediv_iff_mul_le hk, Int.le_floor, Int.le_floor, le_div_iff₀ hk']
  push_cast
  exact Iff.rfl

lemma laser_num_eq_spec {level : ℤ} (h : 1 ≤ level) :
    laser_num level =
      ⌊Real.logb 15 (level : ℝ) * (level : ℝ) /
        (((if level % 10 = 0 then 3 else 5) : ℤ) : ℝ)⌋ := by
  have hkpos : (0 : ℤ) < if level % 10 = 0 then 3 else 5 := by split <;> norm_num
  have hx : (0 : ℝ) ≤ Real.logb 15 (level : ℝ) * (level : ℝ) := by
    apply mul_nonneg
    · exact Real.logb_nonneg (by norm_num) (by exact_mod_cast h)
    · exact_mod_cast (by omega : (0 : ℤ) ≤ level)
  rw [laser_num, realPyInt, if_pos hx, Int.fdiv_eq_ediv _ (le_of_lt hkpos)]
  exact floor_div_intCast _ hkpos

/-- C4: for every level ≥ 1, one scheduler round spawns exactly what the spec
says: one Stalk iff the level is even, one Fencing iff divisible by 7, one
RandomWalk always, one Straight iff divisible by 3, and
`floor(log_15(level) * level / k)` Lasers with `k = 3` iff `level % 10 == 0`
else `5`; in particular, a level-1 round spawns exactly one RandomWalk enemy
and nothing else. -/
theorem claim_C4 :
    (∀ level : ℤ, 1 ≤ level → create_enemy level = specRound level) ∧
    create_enemy 1 = ⟨0, 0, 1, 0, 0⟩ := by
  have hmain : ∀ level : ℤ, 1 ≤ level → create_enemy level = specRound level := by
    intro level h
    rw [create_enemy, specRound]
    simp only [SpawnRound.mk.injEq]
    refine ⟨?_, ?_, trivial, ?_, ?_⟩
    · exact (if_congr Int.dvd_iff_emod_eq_zero rfl rfl).symm
    · exact (if_congr Int.dvd_iff_emod_eq_zero rfl rfl).symm
    · exact (if_congr Int.dvd_iff_emod_eq_zero rfl rfl).symm
    · exact congrArg Int.toNat (laser_num_eq_spec h)
  refine ⟨hmain, ?_⟩
  have h0 : Real.logb 15 ((1 : ℤ) : ℝ) * ((1 : ℤ) : ℝ) = 0 := by
    push_cast
    rw [Real.logb_one]
    ring
  rw [hmain 1 (by norm_num), specRound, h0]
  norm_num

/-- Witness for C4 at level 6: the round spawns one Stalk, no Fencing, one
RandomWalk, one Straight, and `floor(log_15(6) * 6 / 5)` lasers. -/
theorem claim_C4_witness : create_enemy 6 = specRound 6 :=
  claim_C4.1 6 (by norm_num)

end TurtleAdventure
